import Mathlib

/-
  Verification development for the topic-scoped tab/bookmark manager.

  Shallow embedding of:
  * src/utils/tab-identifier.js   (stable tab identity: URL normalization, 32-bit hash)
  * the state store (Store.dispatch, the six slice reducers, middleware chain)
  * the tab visibility reconciler (enforceTabVisibility / verifyTabVisibility)

  Conventions of the embedding:
  * JS strings are Lean `String`s; the JS string primitives used by the code
    (startsWith, includes, toLowerCase, padStart, slice) are re-implemented
    over `List Char` so that every definition evaluates inside the kernel.
    `charCodeAt` is modelled by `Char.toNat`; the two agree on all characters
    of the Basic Multilingual Plane (every string the program hashes is ASCII).
  * A parsed `new URL(...)` value is modelled structurally (`JsUrl`), since the
    URL parser belongs to the platform, not to this repository.  Percent
    encoding of query parameters is not modelled.
  * JS object identity (`!==` checks in Store.dispatch) is modelled by reducers
    returning `Option slice`: `none` stands for "returned the very same
    reference", `some v` for "returned a freshly allocated object with value v".
-/

set_option maxRecDepth 100000

/-! ### JS string primitives over character lists -/

/-- JS `String.prototype.toLowerCase` restricted to ASCII (the only characters
the blacklist comparison ever sees). -/
def jsLowerChar (c : Char) : Char :=
  if 65 ≤ c.toNat ∧ c.toNat ≤ 90 then Char.ofNat (c.toNat + 32) else c

/-- Lower-case a whole string. -/
def jsToLower (s : String) : String := String.mk (s.data.map jsLowerChar)

/-- Does the list start with the pattern? (kernel-computable prefix test). -/
def prefCheck : List Char → List Char → Bool
  | [], _ => true
  | _ :: _, [] => false
  | p :: ps, c :: cs => (p == c) && prefCheck ps cs

/-- JS `String.prototype.startsWith`. -/
def jsStartsWith (s pat : String) : Bool := prefCheck pat.data s.data

/-- Does the pattern occur as a contiguous substring? -/
def subCheck (pat : List Char) : List Char → Bool
  | [] => pat.isEmpty
  | c :: cs => prefCheck pat (c :: cs) || subCheck pat cs

/-- JS `String.prototype.includes`. -/
def jsIncludes (s pat : String) : Bool := subCheck pat.data s.data

/-! ### TabIdentifier.hashString (src/utils/tab-identifier.js, lines 355-368) -/

/-- One hexadecimal digit, lower case, as produced by JS `Number.toString(16)`. -/
def hexDigitChar (n : Nat) : Char :=
  match n with
  | 0 => '0' | 1 => '1' | 2 => '2' | 3 => '3' | 4 => '4' | 5 => '5'
  | 6 => '6' | 7 => '7' | 8 => '8' | 9 => '9' | 10 => 'a' | 11 => 'b'
  | 12 => 'c' | 13 => 'd' | 14 => 'e' | 15 => 'f' | _ => '0'

/-- Numeric value of a lower-case hexadecimal digit. -/
def hexDigitVal (c : Char) : Nat :=
  if c.toNat ≤ 57 then c.toNat - 48 else c.toNat - 87

/-- Hexadecimal digit expansion, most significant digit first.  The fuel is 8
because the code only converts values already reduced modulo 2^32. -/
def toHexAux : Nat → Nat → List Char
  | 0, _ => []
  | fuel + 1, n => if n = 0 then [] else toHexAux fuel (n / 16) ++ [hexDigitChar (n % 16)]

/-- JS `n.toString(16)` for `n < 2^32` (in particular `hex32 0 = "0"`). -/
def hex32 (n : Nat) : String := if n = 0 then "0" else String.mk (toHexAux 8 n)

/-- JS `s.padStart(8, '0')`. -/
def padStart8 (s : String) : String :=
  String.mk (List.replicate (8 - s.length) '0' ++ s.data)

/-- One step of the rolling hash.  In the source each step is
`hash = (hash << 5) - hash + char; hash = hash & hash`: `<<`, `-` and `&`
coerce through 32-bit integers, so on the unsigned residue the step is exactly
multiply by 31, add the code unit, reduce modulo 2^32. -/
def hashStep (h : Nat) (c : Char) : Nat := (h * 31 + c.toNat) % 4294967296

/-- The accumulated 32-bit hash value (`hash >>> 0` at the end of the loop). -/
def rollHash (s : String) : Nat := s.data.foldl hashStep 0

/-- Embedding of `TabIdentifier.hashString`.  Note the early return: the empty string yields
`(0).toString(16) = "0"` without any padding. -/
def hashString (s : String) : String :=
  if s.data.isEmpty then hex32 0 else padStart8 (hex32 (rollHash s))

/-- Value of a hex string (inverse reading used to state hash correctness). -/
def hexVal (s : String) : Nat := s.data.foldl (fun a c => 16 * a + hexDigitVal c) 0

/-! ### URL normalization (TabIdentifier.getNormalizedUrlPattern, lines 193-252) -/

/-- A parsed URL as the platform's `new URL(...)` exposes it: `protocol`
includes the trailing colon (`"https:"`), `hash` includes the leading `#` (or
is empty), `search` is the ordered decoded query parameter list. -/
structure JsUrl where
  protocol : String
  hostname : String
  pathname : String
  search : List (String × String)
  hash : String
  deriving DecidableEq, Repr

/-- Serialized query part: empty, or `?k=v&...` (percent encoding omitted). -/
def joinAmp : List String → String
  | [] => ""
  | [p] => p
  | p :: ps => p ++ "&" ++ joinAmp ps

def searchString (ps : List (String × String)) : String :=
  match ps with
  | [] => ""
  | _ => "?" ++ joinAmp (ps.map fun p => p.1 ++ "=" ++ p.2)

/-- The full serialized URL (`urlObj.href` / the raw `url` argument). -/
def urlString (u : JsUrl) : String :=
  u.protocol ++ "//" ++ u.hostname ++ u.pathname ++ searchString u.search ++ u.hash

/-- JS `normalizedUrl.replace(/\/+$/, '')`. -/
def stripTrailingSlashes (s : String) : String :=
  String.mk ((s.data.reverse.dropWhile (fun c => c == '/')).reverse)

def unstableParamPrefixes : List String :=
  ["utm_", "ref", "session", "token", "id", "fbclid", "gclid"]

def isUnstableKey (k : String) : Bool :=
  unstableParamPrefixes.any fun p => jsStartsWith (jsToLower k) (jsToLower p)

/-- Strict lexicographic comparison on code points, standing in for
`a[0].localeCompare(b[0]) < 0` of the source's comparator. -/
def keyLt : List Char → List Char → Bool
  | [], [] => false
  | [], _ :: _ => true
  | _ :: _, [] => false
  | a :: as, b :: bs =>
    if a.toNat < b.toNat then true
    else if b.toNat < a.toNat then false
    else keyLt as bs

/-- Stable insertion: a parameter goes after every parameter whose key is not
strictly greater (JS `Array.prototype.sort` is stable). -/
def paramInsert (p : String × String) : List (String × String) → List (String × String)
  | [] => [p]
  | q :: qs => if keyLt p.1.data q.1.data then p :: q :: qs else q :: paramInsert p qs

def sortParams (l : List (String × String)) : List (String × String) :=
  l.foldl (fun acc p => paramInsert p acc) []

/-- Embedding of `TabIdentifier.getNormalizedUrlPattern`: fragment short-circuit for
`topicId=` markers, otherwise scheme+host+path with trailing slashes stripped
and the stable, sorted query parameters re-appended. -/
def getNormalizedUrlPattern (u : JsUrl) : String :=
  if u.hash ≠ "" ∧ jsIncludes u.hash "topicId=" then urlString u
  else
    let normalized := stripTrailingSlashes (u.protocol ++ "//" ++ u.hostname ++ u.pathname)
    if u.search.isEmpty then normalized
    else
      let stableParams := u.search.filter fun p => !(isUnstableKey p.1)
      let sortedParams := sortParams stableParams
      let paramStr := joinAmp (sortedParams.map fun p => p.1 ++ "=" ++ p.2)
      if paramStr = "" then normalized else normalized ++ "?" ++ paramStr

/-- Embedding of `TabIdentifier.extractDomain`. -/
def extractDomain (u : JsUrl) : String := u.hostname

/-! ### DOM fingerprint and stable id (tab-identifier.js, lines 103-123, 277-347) -/

def restrictedSchemes : List String :=
  ["about:", "moz-extension:", "chrome:", "resource:", "file:", "view-source:"]

/-- The scheme tests at the top of `extractDomFingerprint` (the source tests
`tab.url.startsWith('about:')` etc. on the raw URL string). -/
def isRestrictedUrl (u : JsUrl) : Bool :=
  restrictedSchemes.any fun p => jsStartsWith (urlString u) p

/-- Result of the `browser.tabs.executeScript` DOM probe: the serialized
fingerprint JSON on success, or one of the two failure modes the code
distinguishes. -/
inductive DomScriptOutcome
  | ok (fingerprintJson : String)
  | permissionError
  | failed
  deriving DecidableEq, Repr

/-- Embedding of `TabIdentifier.extractDomFingerprint`: restricted URLs never run the
script; otherwise hash the probe result, or fall back to URL+title hashes. -/
def extractDomFingerprint (u : JsUrl) (title : String) (dom : DomScriptOutcome) : String :=
  if isRestrictedUrl u then hashString (urlString u ++ "|" ++ title)
  else
    match dom with
    | .ok s => hashString s
    | .permissionError => hashString ("restricted-tab|" ++ urlString u ++ "|" ++ title)
    | .failed => hashString ("basic|" ++ urlString u ++ "|" ++ title)

structure TabMetadata where
  urlPattern : String
  domain : String
  title : String
  faviconUrl : String
  domFingerprint : String
  deriving DecidableEq, Repr

/-- The fields of a platform tab handle that identity derivation reads. -/
structure BrowserTab where
  url : JsUrl
  title : String
  favIconUrl : String
  deriving DecidableEq, Repr

/-- Embedding of `TabIdentifier.getTabMetadata` (success path, lines 59-95). -/
def getTabMetadata (t : BrowserTab) (dom : DomScriptOutcome) : TabMetadata :=
  { urlPattern := getNormalizedUrlPattern t.url
    domain := extractDomain t.url
    title := t.title
    faviconUrl := t.favIconUrl
    domFingerprint := extractDomFingerprint t.url t.title dom }

/-- Embedding of `TabIdentifier.generateStableId` (lines 103-123). -/
def generateStableId (m : TabMetadata) : String :=
  let b1 := m.urlPattern ++ "|" ++ m.domain
  let b2 := if m.domFingerprint ≠ "" then b1 ++ "|" ++ m.domFingerprint else b1
  let b3 :=
    if m.faviconUrl ≠ "" then
      b2 ++ "|" ++ String.mk ((hashString m.faviconUrl).data.take 8)
    else b2
  hashString b3

/-- Embedding of `TabIdentifier.getStableTabId` on a cache miss: metadata, then stable id. -/
def getStableTabId (t : BrowserTab) (dom : DomScriptOutcome) : String :=
  generateStableId (getTabMetadata t dom)

/-- Embedding of `StateTabManager.createDefaultTab`'s synthetic URL
`https://www.google.de/#topicId=<topicId>` (src/unnamed/part_010, line 359). -/
def defaultTabUrl (topicId : String) : JsUrl :=
  { protocol := "https:", hostname := "www.google.de", pathname := "/"
    search := [], hash := "#topicId=" ++ topicId }

/-- Perturbation used by the claims: append one query parameter. -/
def addQueryParam (u : JsUrl) (k v : String) : JsUrl :=
  { u with search := u.search ++ [(k, v)] }

/-- Perturbation used by the claims: replace the path. -/
def setPath (u : JsUrl) (p : String) : JsUrl := { u with pathname := p }

/-! ### State store data model (src/unnamed/part_004: store.js, and the slice reducers) -/

namespace Store

structure Topic where
  id : String
  name : String
  createdAt : Nat
  updatedAt : Nat
  deriving DecidableEq, Repr

structure Category where
  id : String
  name : String
  topicId : String
  createdAt : Nat
  updatedAt : Nat
  deriving DecidableEq, Repr

structure Bookmark where
  id : String
  title : String
  url : String
  categoryId : String
  createdAt : Nat
  updatedAt : Nat
  deriving DecidableEq, Repr

structure CategorySet where
  id : String
  name : String
  categories : List String
  createdAt : Nat
  updatedAt : Nat
  deriving DecidableEq, Repr

/-- An untyped `updates` object as passed to the UPDATE_* actions; absent
fields are `none`.  (`updatedAt` is not modelled because every reducer
overwrites it with `Date.now()` after the spread.) -/
structure EntityPatch where
  id : Option String := none
  name : Option String := none
  title : Option String := none
  url : Option String := none
  topicId : Option String := none
  categoryId : Option String := none
  categories : Option (List String) := none
  createdAt : Option Nat := none
  deriving DecidableEq, Repr

def applyTopicPatch (t : Topic) (p : EntityPatch) (now : Nat) : Topic :=
  { id := p.id.getD t.id, name := p.name.getD t.name
    createdAt := p.createdAt.getD t.createdAt, updatedAt := now }

def applyCategoryPatch (c : Category) (p : EntityPatch) (now : Nat) : Category :=
  { id := p.id.getD c.id, name := p.name.getD c.name
    topicId := p.topicId.getD c.topicId
    createdAt := p.createdAt.getD c.createdAt, updatedAt := now }

def applyBookmarkPatch (b : Bookmark) (p : EntityPatch) (now : Nat) : Bookmark :=
  { id := p.id.getD b.id, title := p.title.getD b.title
    url := p.url.getD b.url, categoryId := p.categoryId.getD b.categoryId
    createdAt := p.createdAt.getD b.createdAt, updatedAt := now }

def applyCategorySetPatch (cs : CategorySet) (p : EntityPatch) (now : Nat) : CategorySet :=
  { id := p.id.getD cs.id, name := p.name.getD cs.name
    categories := p.categories.getD cs.categories
    createdAt := p.createdAt.getD cs.createdAt, updatedAt := now }

/-- A JS object used as a string-keyed map, with insertion order preserved
(the semantics `{...state, [k]: v}` and `delete` rely on). -/
abbrev ObjMap (α : Type) := List (String × α)

def objGet {α : Type} (m : ObjMap α) (k : String) : Option α :=
  (m.find? (fun e => e.1 == k)).map (·.2)

/-- JS `{...m, [k]: v}`: an existing key keeps its position, a new key is
appended last. -/
def objSet {α : Type} (m : ObjMap α) (k : String) (v : α) : ObjMap α :=
  match m with
  | [] => [(k, v)]
  | e :: es => if e.1 = k then (k, v) :: es else e :: objSet es k v

/-- JS `const n = {...m}; delete n[k]`. -/
def objDel {α : Type} (m : ObjMap α) (k : String) : ObjMap α :=
  m.filter (fun e => e.1 ≠ k)

structure SidebarSections where
  topics : Bool := true
  categories : Bool := true
  bookmarks : Bool := true
  deriving DecidableEq, Repr

/-- The `uiState` slice (the open-ended `errors` object is not modelled; no
reducer reads or conditionally writes it). -/
structure UiState where
  sidebarSections : SidebarSections := {}
  selectedCategoryId : Option String := none
  isLoading : Bool := false
  deriving DecidableEq, Repr

def initialUiState : UiState := {}

/-- A SET_UI_STATE payload, spread over the current uiState. -/
structure UiPatch where
  sidebarSections : Option SidebarSections := none
  selectedCategoryId : Option (Option String) := none
  isLoading : Option Bool := none
  deriving DecidableEq, Repr

def applyUiPatch (s : UiState) (p : UiPatch) : UiState :=
  { sidebarSections := p.sidebarSections.getD s.sidebarSections
    selectedCategoryId := p.selectedCategoryId.getD s.selectedCategoryId
    isLoading := p.isLoading.getD s.isLoading }

/-- JS `{...state.sidebarSections, [sectionName]: !state.sidebarSections[sectionName]}`;
an unknown section name creates a key this record does not track, leaving the
three known flags as they were. -/
def toggleSection (s : SidebarSections) (name : String) : SidebarSections :=
  if name = "topics" then { s with topics := !s.topics }
  else if name = "categories" then { s with categories := !s.categories }
  else if name = "bookmarks" then { s with bookmarks := !s.bookmarks }
  else s

/-- Action payload: the union of the fields the action creators populate;
absent fields are `none` (JS `undefined`).  For SET_UI_STATE the payload object
itself is spread into uiState, modelled by the `uiPatch` component. -/
structure Payload where
  topic : Option Topic := none
  topicId : Option String := none
  updates : Option EntityPatch := none
  category : Option Category := none
  categoryId : Option String := none
  bookmark : Option Bookmark := none
  bookmarkId : Option String := none
  categorySet : Option CategorySet := none
  categorySetId : Option String := none
  topics : Option (List Topic) := none
  categories : Option (List Category) := none
  bookmarks : Option (List Bookmark) := none
  categorySets : Option (ObjMap CategorySet) := none
  sectionName : Option String := none
  uiPatch : UiPatch := {}
  deriving DecidableEq, Repr

/-- A dispatched action (`createAction`'s `meta.timestamp` is never read by the
store and is not modelled). -/
structure Action where
  type : String
  payload : Payload := {}
  deriving DecidableEq, Repr

/-!  Each slice reducer is embedded as `state → action → Option state`:
`none` stands for "the reducer returned the identical reference" (the
`default`/`return state` paths), `some v` for "the reducer built a fresh
object with value v".  For the primitive `activeTopicId` slice the `!==` test
in `Store.dispatch` compares values, so there `none` means the returned value
equals the current one. -/

/-- Embedding of `topicsReducer` (src/unnamed/part_003, lines 16-47). -/
def topicsReducer (state : List Topic) (action : Action) (now : Nat) : Option (List Topic) :=
  match action.type with
  | "ADD_TOPIC" => some (state ++ action.payload.topic.toList)
  | "UPDATE_TOPIC" =>
      some (state.map fun t =>
        if some t.id = action.payload.topicId then
          applyTopicPatch t (action.payload.updates.getD {}) now
        else t)
  | "DELETE_TOPIC" => some (state.filter fun t => some t.id ≠ action.payload.topicId)
  | "SET_TOPICS" => some (action.payload.topics.getD [])
  | "RESET_STATE" => some []
  | _ => none

/-- Embedding of `activeTopicIdReducer` (src/unnamed/part_003, lines 56-74). -/
def activeTopicIdReducer (state : Option String) (action : Action) : Option (Option String) :=
  match action.type with
  | "SET_ACTIVE_TOPIC" =>
      if action.payload.topicId = state then none else some action.payload.topicId
  | "DELETE_TOPIC" =>
      match state, action.payload.topicId with
      | some x, some y => if x = y then some none else none
      | _, _ => none
  | "RESET_STATE" => if state = none then none else some none
  | _ => none

/-- Embedding of `categoriesReducer` (src/state/categories-reducer.js). -/
def categoriesReducer (state : ObjMap (List Category)) (action : Action) (now : Nat) :
    Option (ObjMap (List Category)) :=
  match action.type with
  | "ADD_CATEGORY" =>
      match action.payload.category with
      | some c => some (objSet state c.topicId ((objGet state c.topicId).getD [] ++ [c]))
      | none => none
  | "UPDATE_CATEGORY" =>
      match action.payload.topicId with
      | some tid =>
          match objGet state tid with
          | none => none
          | some cats =>
              some (objSet state tid (cats.map fun c =>
                if some c.id = action.payload.categoryId then
                  applyCategoryPatch c (action.payload.updates.getD {}) now
                else c))
      | none => none
  | "DELETE_CATEGORY" =>
      match action.payload.topicId with
      | some tid =>
          match objGet state tid with
          | none => none
          | some cats =>
              some (objSet state tid (cats.filter fun c => some c.id ≠ action.payload.categoryId))
      | none => none
  | "SET_CATEGORIES" =>
      match action.payload.topicId with
      | some tid => some (objSet state tid (action.payload.categories.getD []))
      | none => none
  | "DELETE_TOPIC" =>
      some (match action.payload.topicId with
            | some tid => objDel state tid
            | none => state)
  | "RESET_STATE" => some []
  | _ => none

/-- Embedding of `bookmarksReducer` (src/state/bookmarks-reducer.js). -/
def bookmarksReducer (state : ObjMap (List Bookmark)) (action : Action) (now : Nat) :
    Option (ObjMap (List Bookmark)) :=
  match action.type with
  | "ADD_BOOKMARK" =>
      match action.payload.bookmark with
      | some b => some (objSet state b.categoryId ((objGet state b.categoryId).getD [] ++ [b]))
      | none => none
  | "UPDATE_BOOKMARK" =>
      match action.payload.categoryId with
      | some cid =>
          match objGet state cid with
          | none => none
          | some bs =>
              some (objSet state cid (bs.map fun b =>
                if some b.id = action.payload.bookmarkId then
                  applyBookmarkPatch b (action.payload.updates.getD {}) now
                else b))
      | none => none
  | "DELETE_BOOKMARK" =>
      match action.payload.categoryId with
      | some cid =>
          match objGet state cid with
          | none => none
          | some bs =>
              some (objSet state cid (bs.filter fun b => some b.id ≠ action.payload.bookmarkId))
      | none => none
  | "SET_BOOKMARKS" =>
      match action.payload.categoryId with
      | some cid => some (objSet state cid (action.payload.bookmarks.getD []))
      | none => none
  | "DELETE_CATEGORY" =>
      some (match action.payload.categoryId with
            | some cid => objDel state cid
            | none => state)
  | "RESET_STATE" => some []
  | _ => none

/-- Embedding of `categorySetsReducer` (src/state/category-sets-reducer.js). -/
def categorySetsReducer (state : ObjMap CategorySet) (action : Action) (now : Nat) :
    Option (ObjMap CategorySet) :=
  match action.type with
  | "ADD_CATEGORY_SET" =>
      match action.payload.categorySet with
      | some cs => some (objSet state cs.id cs)
      | none => none
  | "UPDATE_CATEGORY_SET" =>
      match action.payload.categorySetId with
      | some sid =>
          match objGet state sid with
          | none => none
          | some cs =>
              some (objSet state sid (applyCategorySetPatch cs (action.payload.updates.getD {}) now))
      | none => none
  | "DELETE_CATEGORY_SET" =>
      some (match action.payload.categorySetId with
            | some sid => objDel state sid
            | none => state)
  | "SET_CATEGORY_SETS" => some (action.payload.categorySets.getD [])
  | "RESET_STATE" => some []
  | _ => none

/-- Embedding of `uiStateReducer` (src/state/ui-reducer.js). -/
def uiStateReducer (state : UiState) (action : Action) : Option UiState :=
  match action.type with
  | "SET_UI_STATE" => some (applyUiPatch state action.payload.uiPatch)
  | "TOGGLE_SIDEBAR_SECTION" =>
      some { state with
             sidebarSections := toggleSection state.sidebarSections (action.payload.sectionName.getD "") }
  | "DELETE_CATEGORY" =>
      match state.selectedCategoryId, action.payload.categoryId with
      | some sel, some cid =>
          if sel = cid then some { state with selectedCategoryId := none } else none
      | _, _ => none
  | "DELETE_TOPIC" => some { state with selectedCategoryId := none }
  | "RESET_STATE" => some initialUiState
  | _ => none

structure StateMeta where
  lastUpdated : Nat
  initialized : Bool
  lastChanged : Option String
  deriving DecidableEq, Repr

/-- The state tree held by the store. -/
structure AppState where
  version : Nat := 1
  topics : List Topic := []
  categories : ObjMap (List Category) := []
  bookmarks : ObjMap (List Bookmark) := []
  categorySets : ObjMap CategorySet := []
  activeTopicId : Option String := none
  uiState : UiState := initialUiState
  meta : StateMeta := { lastUpdated := 0, initialized := false, lastChanged := none }
  deriving DecidableEq, Repr

/-- The logging middleware as registered (`logActions: false`): it returns the
continuation unchanged. -/
def loggingMiddleware (next : Bool) : Bool := next

/-- The storage middleware: the durable write is fire-and-forget I/O with no
effect on in-memory state; the middleware returns the continuation unchanged. -/
def storageMiddleware (next : Bool) : Bool := next

/-- The middleware loop of `Store.dispatch` over the two registered
middlewares. -/
def runMiddlewares (_action : Action) : Bool :=
  storageMiddleware (loggingMiddleware true)

/-- The reducer loop of `Store.dispatch`: each reducer is applied to the slice
of `this.state`; a slice is merged into the fresh snapshot only when its
reference changed, and `lastChanged` records the last such slice in
registration order (topics, activeTopicId, categories, bookmarks,
categorySets, uiState — the `registerReducer` order in src/state/index.js). -/
def applyReducers (s : AppState) (a : Action) (now : Nat) :
    AppState × Option String × Bool :=
  let r1 := topicsReducer s.topics a now
  let r2 := activeTopicIdReducer s.activeTopicId a
  let r3 := categoriesReducer s.categories a now
  let r4 := bookmarksReducer s.bookmarks a now
  let r5 := categorySetsReducer s.categorySets a now
  let r6 := uiStateReducer s.uiState a
  let newState := { s with
    topics := r1.getD s.topics
    activeTopicId := r2.getD s.activeTopicId
    categories := r3.getD s.categories
    bookmarks := r4.getD s.bookmarks
    categorySets := r5.getD s.categorySets
    uiState := r6.getD s.uiState }
  let lastChanged :=
    if r6.isSome then some "uiState"
    else if r5.isSome then some "categorySets"
    else if r4.isSome then some "bookmarks"
    else if r3.isSome then some "categories"
    else if r2.isSome then some "activeTopicId"
    else if r1.isSome then some "topics"
    else none
  (newState, lastChanged,
   r1.isSome || r2.isSome || r3.isSome || r4.isSome || r5.isSome || r6.isSome)

/-- The slices whose reducer returned a changed reference, in registration
order (specification function used to state the lastChanged invariant). -/
def changedSlices (s : AppState) (a : Action) (now : Nat) : List String :=
  (if (topicsReducer s.topics a now).isSome then ["topics"] else []) ++
  (if (activeTopicIdReducer s.activeTopicId a).isSome then ["activeTopicId"] else []) ++
  (if (categoriesReducer s.categories a now).isSome then ["categories"] else []) ++
  (if (bookmarksReducer s.bookmarks a now).isSome then ["bookmarks"] else []) ++
  (if (categorySetsReducer s.categorySets a now).isSome then ["categorySets"] else []) ++
  (if (uiStateReducer s.uiState a).isSome then ["uiState"] else [])

structure DispatchResult where
  state : AppState
  notified : Bool
  deriving DecidableEq, Repr

/-- One non-reentrant run of `Store.dispatch` (part_004, lines 170-214): the
middleware chain, then the reducer loop; the snapshot (with refreshed meta) is
installed and subscribers are notified only when some slice changed. -/
def dispatchOnce (s : AppState) (a : Action) (now : Nat) : DispatchResult :=
  if runMiddlewares a then
    let res := applyReducers s a now
    if res.2.2 then
      { state := { res.1 with
                   meta := { res.1.meta with lastUpdated := now, lastChanged := res.2.1 } }
        notified := true }
    else { state := s, notified := false }
  else { state := s, notified := false }

end Store

/-! ### Dispatch queue semantics (Store.dispatch, part_004 lines 159-224) -/

namespace Store

/-- The phase of one processing step observable from outside the store. -/
inductive Phase
  | middleware
  | reduce
  | notify
  deriving DecidableEq, Repr

/-- One observable event while the queue is processed: the `idx`-th processed
dispatch occurrence, its phase, the action, and the state visible at that
point (for `notify` the freshly installed snapshot handed to subscribers). -/
structure Event where
  idx : Nat
  phase : Phase
  act : Action
  seen : AppState
  deriving DecidableEq, Repr

/-- Net outcome of the middleware chain for one action: every middleware
returned a truthy continuation (`pass`), some middleware returned a falsy one
(`halt`, reducers and subscribers are skipped), or some middleware threw. -/
inductive MidOutcome
  | pass
  | halt
  | throws
  deriving DecidableEq, Repr

/-- The events of one in-progress dispatch that passed its middleware chain:
middlewares ran, reducers ran, and subscribers are notified exactly when some
slice changed. -/
def procBlock (i : Nat) (s : AppState) (a : Action) (now : Nat) : List Event :=
  Event.mk i .middleware a s :: Event.mk i .reduce a (dispatchOnce s a now).state ::
    (if (dispatchOnce s a now).notified then [Event.mk i .notify a (dispatchOnce s a now).state]
     else [])

/-- The queue-processing loop of `Store.dispatch`.  A dispatch arriving while
`isDispatching` only appends to `pendingActions` and returns; the `finally`
block of the in-progress dispatch shifts the next pending action and
recursively dispatches it — and it does so even when a middleware threw,
before the exception escapes, so the propagated failure is recorded in the
`Except` result while the queue is still drained.  `trig a` lists the actions
synchronously dispatched (hence queued, in call order) while `a` is processed;
`mids a` abstracts the middleware chain's outcome for `a`; `i` numbers the
processed occurrences.  An action whose chain throws is assumed to have
enqueued nothing before the throw. -/
def drainE (mids : Action → MidOutcome) (trig : Action → List Action) (now : Nat) :
    Nat → Nat → AppState → List Action → List Event × Except Unit AppState
  | 0, _, s, _ => ([], .ok s)
  | _ + 1, _, s, [] => ([], .ok s)
  | fuel + 1, i, s, a :: rest =>
    match mids a with
    | .throws =>
        let res := drainE mids trig now fuel (i + 1) s rest
        (Event.mk i .middleware a s :: res.1, .error ())
    | .halt =>
        let res := drainE mids trig now fuel (i + 1) s (rest ++ trig a)
        (Event.mk i .middleware a s :: res.1, res.2)
    | .pass =>
        let res := drainE mids trig now fuel (i + 1) (dispatchOnce s a now).state (rest ++ trig a)
        (procBlock i s a now ++ res.1, res.2)

end Store

/-! ### Tab visibility reconciliation (src/unnamed/part_010: StateTabManager) -/

/-- The fields of a platform tab handle that the reconciler reads. -/
structure PTab where
  id : Nat
  url : String
  hidden : Bool
  deriving DecidableEq, Repr

/-- Embedding of `StateTabManager.isRegularTab`. -/
def isRegularTab (url : String) : Bool :=
  url != "" && !jsStartsWith url "about:" && !jsStartsWith url "chrome:" &&
    !jsStartsWith url "moz-extension:" && url != "about:blank"

/-- Lookup `this.stableIdToTopicMap.get(stableId)`. -/
def mapGet (m : List (String × String)) (k : String) : Option String :=
  (m.find? (fun e => e.1 == k)).map (·.2)

/-- The categorization loop of `enforceTabVisibility` (lines 181-197): returns
`(tabsToHide, tabsToShow)`.  `sid` gives each platform tab's stable id (the
identifier cache makes repeated `getStableTabId` calls return a fixed value
per tab id), `amap` is the `stableId → topicId` assignment map. -/
def scanTabs (tabs : List PTab) (sid : Nat → String) (amap : List (String × String))
    (active : String) : List Nat × List Nat :=
  let regular := tabs.filter fun t => isRegularTab t.url
  let toHide := (regular.filter fun t =>
    !(mapGet amap (sid t.id) == some active) && !t.hidden).map (·.id)
  let toShow := (regular.filter fun t =>
    (mapGet amap (sid t.id) == some active) && t.hidden).map (·.id)
  (toHide, toShow)

/-- Effect of `browser.tabs.hide(ids)` / `browser.tabs.show(ids)` on the
platform tab list. -/
def setHidden (tabs : List PTab) (ids : List Nat) (h : Bool) : List PTab :=
  tabs.map fun t => if t.id ∈ ids then { t with hidden := h } else t

/-- The scanning part of `verifyTabVisibility` (lines 536-571): returns
`(wrongVisibleTabs, wrongHiddenTabs)` as tab-id lists.  A visible tab is wrong
when its assigned topic (defaulted to the string "none") differs from the
active topic; a hidden tab is wrong when its assigned topic equals it. -/
def verifyScan (tabs : List PTab) (sid : Nat → String) (amap : List (String × String))
    (active : String) : List Nat × List Nat :=
  let regular := tabs.filter fun t => isRegularTab t.url
  let visibleTabs := regular.filter fun t => !t.hidden
  let hiddenTabs := regular.filter fun t => t.hidden
  let wrongVisible := (visibleTabs.filter fun t =>
    !((mapGet amap (sid t.id)).getD "none" == active)).map (·.id)
  let wrongHidden := (hiddenTabs.filter fun t =>
    mapGet amap (sid t.id) == some active).map (·.id)
  (wrongVisible, wrongHidden)

/-- Embedding of `verifyTabVisibility`: scan, then corrective `hide`/`show` calls (issued
only for nonempty lists, so "no corrective call" is exactly "both lists
empty"). -/
def verifyTabVisibility (tabs : List PTab) (sid : Nat → String)
    (amap : List (String × String)) (active : String) : List PTab :=
  let w := verifyScan tabs sid amap active
  setHidden (setHidden tabs w.1 true) w.2 false

/-- Embedding of `enforceTabVisibility` (lines 168-232): falsy-guard on the active topic,
categorize, `hide` then `show`, then the verification pass. -/
def enforceTabVisibility (tabs : List PTab) (sid : Nat → String)
    (amap : List (String × String)) (active : String) : List PTab :=
  if active = "" then tabs
  else
    let c := scanTabs tabs sid amap active
    let afterHide := setHidden tabs c.1 true
    let afterShow := setHidden afterHide c.2 false
    verifyTabVisibility afterShow sid amap active

/-! ### Concrete fixtures used by witnesses and counterexamples -/

def topicT1 : Store.Topic := { id := "t1", name := "Work", createdAt := 0, updatedAt := 0 }

def bookmarkB1 : Store.Bookmark :=
  { id := "b1", title := "Docs", url := "https://d/", categoryId := "c1"
    createdAt := 0, updatedAt := 0 }

def sInit : Store.AppState :=
  { topics := [topicT1], categories := [("t1", [])]
    bookmarks := [("c1", [bookmarkB1])], activeTopicId := some "t1" }

def aDeleteT1 : Store.Action := { type := "DELETE_TOPIC", payload := { topicId := some "t1" } }

def aSetT1 : Store.Action := { type := "SET_ACTIVE_TOPIC", payload := { topicId := some "t1" } }

def aSetT2 : Store.Action := { type := "SET_ACTIVE_TOPIC", payload := { topicId := some "t2" } }

def aSetT3 : Store.Action := { type := "SET_ACTIVE_TOPIC", payload := { topicId := some "t3" } }

/-- Middleware abstraction where every chain passes. -/
def midsPass : Store.Action → Store.MidOutcome := fun _ => .pass

/-- Synchronous-dispatch pattern: processing `aSetT1` dispatches `aSetT2`. -/
def trigChain : Store.Action → List Store.Action := fun a => if a = aSetT1 then [aSetT2] else []

/-- Middleware abstraction where `aSetT2`'s chain throws. -/
def midsThrow2 : Store.Action → Store.MidOutcome :=
  fun a => if a = aSetT2 then .throws else .pass

/-- Processing `aSetT1` dispatches `aSetT2` then `aSetT3` (so `aSetT3` is on
the pending queue when `aSetT2`'s middleware throws). -/
def trigTwo : Store.Action → List Store.Action :=
  fun a => if a = aSetT1 then [aSetT2, aSetT3] else []

def urlA : JsUrl :=
  { protocol := "https:", hostname := "example.com", pathname := "/a", search := [], hash := "" }

def urlFrag : JsUrl :=
  { protocol := "https:", hostname := "h", pathname := "/", search := [], hash := "#topicId=t1" }

def urlQ : JsUrl :=
  { protocol := "https:", hostname := "example.com", pathname := "/p"
    search := [("x", "1")], hash := "" }

def tabsW : List PTab :=
  [{ id := 1, url := "https://a/", hidden := false },
   { id := 2, url := "https://b/", hidden := false },
   { id := 3, url := "about:config", hidden := false }]

def sidW : Nat → String := fun n => if n = 1 then "s1" else if n = 2 then "s2" else "s3"

def amapW : List (String × String) := [("s1", "t1"), ("s2", "t2")]

/-! ### Theorems -/

theorem strEq_of_data {s t : String} (h : s.data = t.data) : s = t := by
  cases s; cases t; cases h; rfl

theorem data_ne_nil_of_ne_empty {s : String} (h : s ≠ "") : s.data ≠ [] := by
  intro hd
  exact h (strEq_of_data hd)

/-! #### C9: the rolling hash -/

theorem foldl_hashStep_lt (l : List Char) :
    ∀ h : Nat, h < 4294967296 → l.foldl hashStep h < 4294967296 := by
  induction l with
  | nil => intro h hh; simpa using hh
  | cons c cs ih =>
      intro h hh
      simp only [List.foldl_cons]
      exact ih _ (Nat.mod_lt _ (by norm_num))

theorem rollHash_lt (s : String) : rollHash s < 4294967296 :=
  foldl_hashStep_lt s.data 0 (by norm_num)

theorem toHexAux_length : ∀ fuel n : Nat, (toHexAux fuel n).length ≤ fuel := by
  intro fuel
  induction fuel with
  | zero => intro n; simp [toHexAux]
  | succ f ih =>
      intro n
      by_cases h : n = 0
      · simp [toHexAux, h]
      · simp only [toHexAux, if_neg h, List.length_append, List.length_cons, List.length_nil]
        have := ih (n / 16)
        omega

theorem hex32_length_le (n : Nat) : (hex32 n).length ≤ 8 := by
  by_cases h : n = 0
  · simp [hex32, h, String.length]
  · simpa [hex32, h, String.length] using toHexAux_length 8 n

theorem padStart8_length {s : String} (h : s.length ≤ 8) : (padStart8 s).length = 8 := by
  simp only [padStart8, String.length, List.length_append, List.length_replicate]
  simp only [String.length] at h
  omega

theorem hexDigitVal_hexDigitChar : ∀ d : Nat, d < 16 → hexDigitVal (hexDigitChar d) = d := by
  decide

theorem toHexAux_val :
    ∀ (fuel n a : Nat), n < 16 ^ fuel →
      (toHexAux fuel n).foldl (fun acc c => 16 * acc + hexDigitVal c) a
        = a * 16 ^ (toHexAux fuel n).length + n := by
  intro fuel
  induction fuel with
  | zero =>
      intro n a hn
      interval_cases n
      simp [toHexAux]
  | succ f ih =>
      intro n a hn
      by_cases h : n = 0
      · simp [toHexAux, h]
      · have hdiv : n / 16 < 16 ^ f := by
          have : n < 16 * 16 ^ f := by
            have := hn; rw [pow_succ] at this; omega
          omega
        simp only [toHexAux, if_neg h, List.foldl_append, List.foldl_cons, List.foldl_nil,
          List.length_append, List.length_cons, List.length_nil]
        rw [ih (n / 16) a hdiv]
        rw [hexDigitVal_hexDigitChar (n % 16) (Nat.mod_lt _ (by norm_num))]
        have hmod := Nat.div_add_mod n 16
        ring_nf
        omega

theorem hexVal_hex32 {n : Nat} (hn : n < 4294967296) : hexVal (hex32 n) = n := by
  by_cases h : n = 0
  · simp [hex32, h, hexVal, hexDigitVal]
  · have : n < 16 ^ 8 := by norm_num at hn ⊢; omega
    simpa [hex32, h, hexVal] using toHexAux_val 8 n 0 this

theorem foldl_hexzeros (k : Nat) :
    (List.replicate k '0').foldl (fun acc c => 16 * acc + hexDigitVal c) 0 = 0 := by
  induction k with
  | zero => rfl
  | succ m ih => simpa [List.replicate_succ, hexDigitVal] using ih

theorem hexVal_padStart8 (s : String) : hexVal (padStart8 s) = hexVal s := by
  simp only [hexVal, padStart8, List.foldl_append]
  rw [foldl_hexzeros]

/-- C9 (corrected): for every nonempty input string the stable-id hash
function returns a hexadecimal string of exactly 8 characters, zero padded,
whose value is the 32-bit masked multiply-add rolling hash of the string's
characters; the claim's "in particular the empty string" part fails — the
empty string takes the `str.length === 0` early return and yields the
unpadded one-character string "0" (see the counterexample). -/
theorem hashString_eight_hex (s : String) (h : s ≠ "") :
    (hashString s).length = 8 ∧
    hexVal (hashString s) = rollHash s ∧
    rollHash s < 4294967296 := by
  have hd : s.data ≠ [] := data_ne_nil_of_ne_empty h
  have hne : s.data.isEmpty = false := by
    cases hcase : s.data with
    | nil => exact absurd hcase hd
    | cons c cs => rfl
  refine ⟨?_, ?_, rollHash_lt s⟩
  · simp only [hashString, hne, Bool.false_eq_true, if_false]
    exact padStart8_length (hex32_length_le _)
  · simp only [hashString, hne, Bool.false_eq_true, if_false]
    rw [hexVal_padStart8]
    exact hexVal_hex32 (rollHash_lt s)

/-- C9 counterexample: on the empty string `hashString` returns `"0"`, a
one-character string, not an 8-character zero-padded one — refuting the
claim's universal "exactly 8 characters ... in particular ... the empty
string". -/
theorem hashString_empty_not_padded :
    hashString "" = "0" ∧ (hashString "").length = 1 := by
  constructor <;> rfl

theorem hashString_eight_hex_witness :
    ("a" : String) ≠ "" ∧
    ((hashString "a").length = 8 ∧
      hexVal (hashString "a") = rollHash "a" ∧
      rollHash "a" < 4294967296) :=
  ⟨by decide, hashString_eight_hex "a" (by decide)⟩

/-! #### C6: per-topic default tab URLs resolve to distinct patterns -/

theorem prefCheck_self_append (pat rest : List Char) : prefCheck pat (pat ++ rest) = true := by
  induction pat with
  | nil => rfl
  | cons p ps ih => simp [prefCheck, ih]

theorem subCheck_of_middle (pat pre post : List Char) :
    subCheck pat (pre ++ (pat ++ post)) = true := by
  induction pre with
  | nil =>
      simp only [List.nil_append]
      cases pat with
      | nil =>
          cases post with
          | nil => rfl
          | cons c cs => simp [subCheck, prefCheck]
      | cons p ps =>
          simp only [subCheck, List.cons_append]
          have hpre := prefCheck_self_append (p :: ps) post
          simp only [List.cons_append] at hpre
          simp [hpre]
  | cons c cs ih => simp [subCheck, ih]

theorem defaultTabUrl_hash_data (tid : String) :
    ("#topicId=" ++ tid).data = '#' :: ("topicId=".data ++ tid.data) := by
  rw [String.data_append]
  rfl

theorem jsIncludes_topic_marker (tid : String) :
    jsIncludes ("#topicId=" ++ tid) "topicId=" = true := by
  unfold jsIncludes
  rw [defaultTabUrl_hash_data]
  have : '#' :: ("topicId=".data ++ tid.data) = ['#'] ++ ("topicId=".data ++ tid.data) := rfl
  rw [this]
  exact subCheck_of_middle _ _ _

theorem defaultTabUrl_hash_ne_empty (tid : String) : ("#topicId=" ++ tid) ≠ "" := by
  intro h
  have := congrArg String.data h
  rw [defaultTabUrl_hash_data] at this
  exact List.cons_ne_nil _ _ this

/-- C6 (confirmed): the synthetic default-tab URLs embed `#topicId=<id>`, so
the resolver's fragment short-circuit maps them to the full URL including the
fragment, and distinct topic ids yield distinct URL patterns — each topic's
default tab identity is unique to that topic. -/
theorem defaultTab_pattern_unique (t1 t2 : String) (h : t1 ≠ t2) :
    getNormalizedUrlPattern (defaultTabUrl t1) = urlString (defaultTabUrl t1) ∧
    getNormalizedUrlPattern (defaultTabUrl t2) = urlString (defaultTabUrl t2) ∧
    getNormalizedUrlPattern (defaultTabUrl t1) ≠ getNormalizedUrlPattern (defaultTabUrl t2) := by
  have hp : ∀ tid : String, getNormalizedUrlPattern (defaultTabUrl tid) = urlString (defaultTabUrl tid) := by
    intro tid
    unfold getNormalizedUrlPattern
    rw [if_pos]
    exact ⟨defaultTabUrl_hash_ne_empty tid, jsIncludes_topic_marker tid⟩
  refine ⟨hp t1, hp t2, ?_⟩
  rw [hp t1, hp t2]
  intro heq
  apply h
  have hdata := congrArg String.data heq
  simp only [urlString, defaultTabUrl, searchString, String.data_append, List.append_assoc,
    List.cons_append, List.nil_append] at hdata
  simp only [List.cons.injEq, true_and] at hdata
  exact strEq_of_data hdata

theorem defaultTab_pattern_unique_witness :
    ("a" : String) ≠ "b" ∧
    (getNormalizedUrlPattern (defaultTabUrl "a") = urlString (defaultTabUrl "a") ∧
      getNormalizedUrlPattern (defaultTabUrl "b") = urlString (defaultTabUrl "b") ∧
      getNormalizedUrlPattern (defaultTabUrl "a") ≠ getNormalizedUrlPattern (defaultTabUrl "b")) :=
  ⟨by decide, defaultTab_pattern_unique "a" "b" (by decide)⟩

/-! #### Association-map facts shared by the store claims -/

theorem objGet_cons {α : Type} (e : String × α) (es : Store.ObjMap α) (k : String) :
    Store.objGet (e :: es) k = if e.1 = k then some e.2 else Store.objGet es k := by
  by_cases h : e.1 = k
  · have hb : (e.1 == k) = true := beq_iff_eq.mpr h
    simp [Store.objGet, List.find?, hb, h]
  · have hb : (e.1 == k) = false := beq_eq_false_iff_ne.mpr h
    simp [Store.objGet, List.find?, hb, h]

theorem objGet_objDel_self {α : Type} (m : Store.ObjMap α) (k : String) :
    Store.objGet (Store.objDel m k) k = none := by
  induction m with
  | nil => rfl
  | cons e es ih =>
      by_cases h : e.1 = k
      · simpa [Store.objDel, List.filter_cons, h] using ih
      · have hp : (decide ¬e.1 = k) = true := by simp [h]
        simp only [Store.objDel, List.filter_cons, hp, if_true] at ih ⊢
        rw [objGet_cons, if_neg h]
        exact ih

theorem objSet_objGet_self {α : Type} (m : Store.ObjMap α) (k : String) (v : α)
    (h : Store.objGet m k = some v) : Store.objSet m k v = m := by
  induction m with
  | nil => simp [Store.objGet] at h
  | cons e es ih =>
      rw [objGet_cons] at h
      by_cases hk : e.1 = k
      · rw [if_pos hk] at h
        have hv : e.2 = v := Option.some.inj h
        show (if e.1 = k then (k, v) :: es else e :: Store.objSet es k v) = e :: es
        rw [if_pos hk, ← hk, ← hv]
      · rw [if_neg hk] at h
        show (if e.1 = k then (k, v) :: es else e :: Store.objSet es k v) = e :: es
        rw [if_neg hk, ih h]

/-! #### C2: meta.lastChanged names the last changed slice; no-change dispatch is a no-op -/

/-- C2 (confirmed): after a dispatch, if no reducer changed its slice's
reference the state object (meta included) is not replaced and subscribers are
not notified; otherwise subscribers are notified and `meta.lastChanged` is the
last slice, in reducer registration order, whose reducer returned a changed
reference. -/
theorem dispatch_lastChanged_correct (s : Store.AppState) (a : Store.Action) (now : Nat) :
    (Store.changedSlices s a now = [] →
        Store.dispatchOnce s a now = { state := s, notified := false }) ∧
    (Store.changedSlices s a now ≠ [] →
        (Store.dispatchOnce s a now).notified = true ∧
        (Store.dispatchOnce s a now).state.meta.lastChanged
          = (Store.changedSlices s a now).getLast?) := by
  unfold Store.dispatchOnce Store.applyReducers Store.changedSlices Store.runMiddlewares
    Store.storageMiddleware Store.loggingMiddleware
  cases h1 : Store.topicsReducer s.topics a now <;>
    cases h2 : Store.activeTopicIdReducer s.activeTopicId a <;>
      cases h3 : Store.categoriesReducer s.categories a now <;>
        cases h4 : Store.bookmarksReducer s.bookmarks a now <;>
          cases h5 : Store.categorySetsReducer s.categorySets a now <;>
            cases h6 : Store.uiStateReducer s.uiState a <;>
              simp_all [List.getLast?]

theorem dispatch_lastChanged_correct_witness :
    Store.changedSlices sInit aDeleteT1 5 ≠ [] ∧
    ((Store.dispatchOnce sInit aDeleteT1 5).notified = true ∧
      (Store.dispatchOnce sInit aDeleteT1 5).state.meta.lastChanged
        = (Store.changedSlices sInit aDeleteT1 5).getLast?) :=
  ⟨by decide, (dispatch_lastChanged_correct sInit aDeleteT1 5).2 (by decide)⟩

/-! #### C7: deleting the active topic -/

/-- The `deleteTopic(topicId)` action creator. -/
def actionDeleteTopic (topicId : String) : Store.Action :=
  { type := "DELETE_TOPIC", payload := { topicId := some topicId } }

/-- C7 (confirmed): dispatching DELETE_TOPIC for the currently active topic
yields a state whose activeTopicId is null, whose categories map no longer has
the topic's key, and whose topics list no longer contains the topic. -/
theorem deleteTopic_clears_active (s : Store.AppState) (tid : String) (now : Nat)
    (h : s.activeTopicId = some tid) :
    (Store.dispatchOnce s (actionDeleteTopic tid) now).state.activeTopicId = none ∧
    Store.objGet (Store.dispatchOnce s (actionDeleteTopic tid) now).state.categories tid = none ∧
    ∀ t ∈ (Store.dispatchOnce s (actionDeleteTopic tid) now).state.topics, t.id ≠ tid := by
  refine ⟨?_, ?_, ?_⟩ <;>
    simp [Store.dispatchOnce, Store.applyReducers, Store.runMiddlewares,
      Store.storageMiddleware, Store.loggingMiddleware, h, actionDeleteTopic,
      Store.topicsReducer, Store.activeTopicIdReducer, Store.categoriesReducer,
      Store.bookmarksReducer, Store.categorySetsReducer, Store.uiStateReducer,
      objGet_objDel_self, List.mem_filter]

theorem deleteTopic_clears_active_witness :
    sInit.activeTopicId = some "t1" ∧
    ((Store.dispatchOnce sInit (actionDeleteTopic "t1") 5).state.activeTopicId = none ∧
      Store.objGet (Store.dispatchOnce sInit (actionDeleteTopic "t1") 5).state.categories "t1" = none ∧
      ∀ t ∈ (Store.dispatchOnce sInit (actionDeleteTopic "t1") 5).state.topics, t.id ≠ "t1") :=
  ⟨by decide, deleteTopic_clears_active sInit "t1" 5 (by decide)⟩

/-! #### C8: UPDATE_BOOKMARK for an unknown category is a no-op -/

/-- The `updateBookmark(bookmarkId, categoryId, updates)` action creator. -/
def actionUpdateBookmark (bookmarkId : String) (categoryId : String)
    (updates : Store.EntityPatch) : Store.Action :=
  { type := "UPDATE_BOOKMARK"
    payload := { bookmarkId := some bookmarkId, categoryId := some categoryId
                 updates := some updates } }

/-- C8 (confirmed): when the bookmarks map has no array under the given
categoryId, dispatching UPDATE_BOOKMARK leaves the identical state object in
place — no slice reference changes, the snapshot is not replaced (so
meta.lastChanged and meta.lastUpdated are untouched) and subscribers are not
called. -/
theorem updateBookmark_missing_is_noop (s : Store.AppState) (bid cid : String)
    (p : Store.EntityPatch) (now : Nat) (h : Store.objGet s.bookmarks cid = none) :
    Store.dispatchOnce s (actionUpdateBookmark bid cid p) now = { state := s, notified := false } := by
  simp [Store.dispatchOnce, Store.applyReducers, Store.runMiddlewares,
    Store.storageMiddleware, Store.loggingMiddleware, actionUpdateBookmark,
    Store.topicsReducer, Store.activeTopicIdReducer, Store.categoriesReducer,
    Store.bookmarksReducer, Store.categorySetsReducer, Store.uiStateReducer, h]

theorem updateBookmark_missing_is_noop_witness :
    Store.objGet sInit.bookmarks "nope" = none ∧
    Store.dispatchOnce sInit (actionUpdateBookmark "b1" "nope" {}) 5
      = { state := sInit, notified := false } :=
  ⟨by decide, updateBookmark_missing_is_noop sInit "b1" "nope" {} 5 (by decide)⟩

/-! #### C10: DELETE_BOOKMARK with no matching bookmark still counts as a change -/

/-- The `deleteBookmark(bookmarkId, categoryId)` action creator. -/
def actionDeleteBookmark (bookmarkId : String) (categoryId : String) : Store.Action :=
  { type := "DELETE_BOOKMARK"
    payload := { bookmarkId := some bookmarkId, categoryId := some categoryId } }

/-- C10 (confirmed): when the bookmarks map does have an array under the
categoryId but no bookmark matches the bookmarkId, the reducer returns a fresh
object (`some` in the reference model) whose contents equal the old map
element-wise, so the dispatch counts as a change: subscribers are notified and
meta.lastChanged is set to "bookmarks" even though nothing was removed. -/
theorem deleteBookmark_no_match_notifies (s : Store.AppState) (cid bid : String)
    (arr : List Store.Bookmark) (now : Nat)
    (harr : Store.objGet s.bookmarks cid = some arr)
    (hno : ∀ b ∈ arr, b.id ≠ bid) :
    Store.bookmarksReducer s.bookmarks (actionDeleteBookmark bid cid) now = some s.bookmarks ∧
    (Store.dispatchOnce s (actionDeleteBookmark bid cid) now).notified = true ∧
    (Store.dispatchOnce s (actionDeleteBookmark bid cid) now).state.meta.lastChanged
      = some "bookmarks" ∧
    (Store.dispatchOnce s (actionDeleteBookmark bid cid) now).state.bookmarks = s.bookmarks := by
  have hfilter : arr.filter (fun b => some b.id ≠ some bid) = arr := by
    rw [List.filter_eq_self]
    intro b hb
    simpa using hno b hb
  have hred : Store.bookmarksReducer s.bookmarks (actionDeleteBookmark bid cid) now
      = some s.bookmarks := by
    simp only [Store.bookmarksReducer, actionDeleteBookmark, harr]
    rw [hfilter, objSet_objGet_self s.bookmarks cid arr harr]
  simp only [actionDeleteBookmark] at hred ⊢
  refine ⟨hred, ?_, ?_, ?_⟩ <;>
    simp [Store.dispatchOnce, Store.applyReducers, Store.runMiddlewares,
      Store.storageMiddleware, Store.loggingMiddleware, hred,
      Store.topicsReducer, Store.activeTopicIdReducer, Store.categoriesReducer,
      Store.categorySetsReducer, Store.uiStateReducer]

theorem deleteBookmark_no_match_notifies_witness :
    Store.objGet sInit.bookmarks "c1" = some [bookmarkB1] ∧
    (∀ b ∈ [bookmarkB1], b.id ≠ "zz") ∧
    (Store.bookmarksReducer sInit.bookmarks (actionDeleteBookmark "zz" "c1") 5
        = some sInit.bookmarks ∧
      (Store.dispatchOnce sInit (actionDeleteBookmark "zz" "c1") 5).notified = true ∧
      (Store.dispatchOnce sInit (actionDeleteBookmark "zz" "c1") 5).state.meta.lastChanged
        = some "bookmarks" ∧
      (Store.dispatchOnce sInit (actionDeleteBookmark "zz" "c1") 5).state.bookmarks
        = sInit.bookmarks) :=
  ⟨by decide, by decide,
    deleteBookmark_no_match_notifies sInit "c1" "zz" [bookmarkB1] 5 (by decide) (by decide)⟩

/-! #### C3: dispatch serializability through the FIFO pending queue -/

theorem procBlock_idx (i : Nat) (s : Store.AppState) (a : Store.Action) (now : Nat) :
    ∀ e ∈ Store.procBlock i s a now, e.idx = i := by
  intro e he
  unfold Store.procBlock at he
  rcases List.mem_cons.mp he with rfl | he2
  · rfl
  rcases List.mem_cons.mp he2 with rfl | he3
  · rfl
  by_cases hn : (Store.dispatchOnce s a now).notified
  · rw [if_pos hn] at he3
    simp only [List.mem_singleton] at he3
    subst he3; rfl
  · rw [if_neg hn] at he3
    simp at he3

/-- Position lemma for the queue loop: if the pending queue is
`l1 ++ B :: l2`, then with enough fuel the occurrence that processes `B` is
number `i + l1.length`, its first event is its middleware event, and every
event before it belongs to an earlier occurrence. -/
theorem drainE_reaches_queued (mids : Store.Action → Store.MidOutcome)
    (trig : Store.Action → List Store.Action) (now : Nat) (B : Store.Action) :
    ∀ (l1 l2 : List Store.Action) (fuel i : Nat) (s : Store.AppState),
      l1.length + 1 ≤ fuel →
      ∃ sB t1 t2,
        (Store.drainE mids trig now fuel i s (l1 ++ B :: l2)).1
          = t1 ++ Store.Event.mk (i + l1.length) .middleware B sB :: t2
        ∧ ∀ e ∈ t1, i ≤ e.idx ∧ e.idx < i + l1.length := by
  intro l1
  induction l1 with
  | nil =>
      intro l2 fuel i s hf
      obtain ⟨f, rfl⟩ : ∃ f, fuel = f + 1 := ⟨fuel - 1, by omega⟩
      cases hm : mids B with
      | throws =>
          refine ⟨s, [], (Store.drainE mids trig now f (i + 1) s l2).1, ?_, by simp⟩
          simp [Store.drainE, hm]
      | halt =>
          refine ⟨s, [], (Store.drainE mids trig now f (i + 1) s (l2 ++ trig B)).1, ?_, by simp⟩
          simp [Store.drainE, hm]
      | pass =>
          refine ⟨s, [],
            Store.Event.mk i .reduce B (Store.dispatchOnce s B now).state ::
              ((if (Store.dispatchOnce s B now).notified
                  then [Store.Event.mk i .notify B (Store.dispatchOnce s B now).state] else []) ++
                (Store.drainE mids trig now f (i + 1) (Store.dispatchOnce s B now).state
                  (l2 ++ trig B)).1), ?_, by simp⟩
          simp [Store.drainE, hm, Store.procBlock]
  | cons a l1' ih =>
      intro l2 fuel i s hf
      obtain ⟨f, rfl⟩ : ∃ f, fuel = f + 1 := ⟨fuel - 1, by omega⟩
      have hf' : l1'.length + 1 ≤ f := by
        simp only [List.length_cons] at hf; omega
      have harith : i + 1 + l1'.length = i + (a :: l1').length := by
        simp only [List.length_cons]; omega
      cases hm : mids a with
      | throws =>
          obtain ⟨sB, t1, t2, heq, hb⟩ := ih l2 f (i + 1) s hf'
          rw [harith] at heq
          refine ⟨sB, Store.Event.mk i .middleware a s :: t1, t2, ?_, ?_⟩
          · have hun : (Store.drainE mids trig now (f + 1) i s ((a :: l1') ++ B :: l2)).1
                = Store.Event.mk i .middleware a s ::
                  (Store.drainE mids trig now f (i + 1) s (l1' ++ B :: l2)).1 := by
              simp [Store.drainE, hm]
            rw [hun, heq]
            simp
          · intro e he
            rcases List.mem_cons.mp he with rfl | he2
            · simp only [List.length_cons]; omega
            · have := hb e he2
              simp only [List.length_cons]
              omega
      | halt =>
          have hq : (l1' ++ B :: l2) ++ trig a = l1' ++ B :: (l2 ++ trig a) := by
            simp [List.append_assoc]
          obtain ⟨sB, t1, t2, heq, hb⟩ := ih (l2 ++ trig a) f (i + 1) s hf'
          rw [harith] at heq
          refine ⟨sB, Store.Event.mk i .middleware a s :: t1, t2, ?_, ?_⟩
          · have hun : (Store.drainE mids trig now (f + 1) i s ((a :: l1') ++ B :: l2)).1
                = Store.Event.mk i .middleware a s ::
                  (Store.drainE mids trig now f (i + 1) s ((l1' ++ B :: l2) ++ trig a)).1 := by
              simp [Store.drainE, hm]
            rw [hun, hq, heq]
            simp
          · intro e he
            rcases List.mem_cons.mp he with rfl | he2
            · simp only [List.length_cons]; omega
            · have := hb e he2
              simp only [List.length_cons]
              omega
      | pass =>
          have hq : (l1' ++ B :: l2) ++ trig a = l1' ++ B :: (l2 ++ trig a) := by
            simp [List.append_assoc]
          obtain ⟨sB, t1, t2, heq, hb⟩ :=
            ih (l2 ++ trig a) f (i + 1) (Store.dispatchOnce s a now).state hf'
          rw [harith] at heq
          refine ⟨sB, Store.procBlock i s a now ++ t1, t2, ?_, ?_⟩
          · have hun : (Store.drainE mids trig now (f + 1) i s ((a :: l1') ++ B :: l2)).1
                = Store.procBlock i s a now ++
                  (Store.drainE mids trig now f (i + 1) (Store.dispatchOnce s a now).state
                    ((l1' ++ B :: l2) ++ trig a)).1 := by
              simp [Store.drainE, hm]
            rw [hun, hq, heq]
            simp
          · intro e he
            rcases List.mem_append.mp he with he1 | he2
            · have := procBlock_idx i s a now e he1
              simp only [List.length_cons]
              omega
            · have := hb e he2
              simp only [List.length_cons]
              omega

/-- C3 (confirmed): an action `B` dispatched synchronously while `A` is being
processed is queued FIFO (the model's `trig`); with enough fuel, the trace of
dispatching `A` consists of `A`'s complete block — middleware, reducers, and
the notification handing `A`'s new state to every subscriber — strictly
before `B`'s first event (its occurrence is number `1 + l1.length`, after the
actions queued before it), and everything in between belongs to earlier queued
occurrences. -/
theorem dispatch_serializability (mids : Store.Action → Store.MidOutcome)
    (trig : Store.Action → List Store.Action) (now : Nat) (s : Store.AppState)
    (A B : Store.Action) (l1 l2 : List Store.Action) (fuel : Nat)
    (hB : trig A = l1 ++ B :: l2)
    (hA : mids A = .pass)
    (hf : l1.length + 2 ≤ fuel) :
    ∃ sB t1 t2,
      (Store.drainE mids trig now fuel 0 s [A]).1
        = Store.procBlock 0 s A now
            ++ (t1 ++ Store.Event.mk (1 + l1.length) .middleware B sB :: t2)
      ∧ (∀ e ∈ Store.procBlock 0 s A now, e.idx = 0)
      ∧ ∀ e ∈ t1, 1 ≤ e.idx ∧ e.idx < 1 + l1.length := by
  obtain ⟨f, rfl⟩ : ∃ f, fuel = f + 1 := ⟨fuel - 1, by omega⟩
  have hf' : l1.length + 1 ≤ f := by omega
  obtain ⟨sB, t1, t2, heq, hb⟩ :=
    drainE_reaches_queued mids trig now B l1 l2 f 1 (Store.dispatchOnce s A now).state hf'
  refine ⟨sB, t1, t2, ?_, procBlock_idx 0 s A now, hb⟩
  have hun : (Store.drainE mids trig now (f + 1) 0 s [A]).1
      = Store.procBlock 0 s A now
        ++ (Store.drainE mids trig now f 1 (Store.dispatchOnce s A now).state (trig A)).1 := by
    simp [Store.drainE, hA]
  rw [hun, hB, heq]

theorem dispatch_serializability_witness :
    ∃ sB t1 t2,
      (Store.drainE midsPass trigChain 0 2 0 sInit [aSetT1]).1
        = Store.procBlock 0 sInit aSetT1 0
            ++ (t1 ++ Store.Event.mk (1 + List.length ([] : List Store.Action))
                  .middleware aSetT2 sB :: t2)
      ∧ (∀ e ∈ Store.procBlock 0 sInit aSetT1 0, e.idx = 0)
      ∧ ∀ e ∈ t1, 1 ≤ e.idx ∧ e.idx < 1 + List.length ([] : List Store.Action) :=
  dispatch_serializability midsPass trigChain 0 sInit aSetT1 aSetT2 [] [] 2
    (by decide) (by decide) (by decide)

/-! #### C4: a throwing middleware -/

/-- C4 (corrected): when a middleware throws while action `a` is dispatched,
the exception does propagate out of `dispatch` (the run's result is `error`)
and no reducer runs for `a` (its occurrence contributes only its middleware
event), but — contrary to the claim — actions already on the FIFO pending
queue ARE still processed: the `finally` block shifts and dispatches them
before the exception escapes, so the remaining trace is exactly the drain of
the pending queue. -/
theorem middleware_throw_propagates_but_queue_drains
    (mids : Store.Action → Store.MidOutcome) (trig : Store.Action → List Store.Action)
    (now fuel i : Nat) (s : Store.AppState) (a : Store.Action) (q : List Store.Action)
    (h : mids a = .throws) :
    (Store.drainE mids trig now (fuel + 1) i s (a :: q)).2 = .error () ∧
    (Store.drainE mids trig now (fuel + 1) i s (a :: q)).1
      = Store.Event.mk i .middleware a s :: (Store.drainE mids trig now fuel (i + 1) s q).1 := by
  constructor <;> simp [Store.drainE, h]

/-- C4 counterexample: dispatching `aSetT1` queues `aSetT2` then `aSetT3`;
`aSetT2`'s middleware throws.  The claim says the queued successor `aSetT3` is
not processed — yet the run's reduce events are exactly those of `aSetT1` and
`aSetT3`: the exception propagates (result is `error`) and the throwing
action's reducers are skipped, but the queued successor IS still processed. -/
theorem claim_c4_counterexample :
    (Store.drainE midsThrow2 trigTwo 0 4 0 sInit [aSetT1]).2 = .error () ∧
    ((Store.drainE midsThrow2 trigTwo 0 4 0 sInit [aSetT1]).1.filter
        (fun e => e.phase == Store.Phase.reduce)).map (fun e => e.act)
      = [aSetT1, aSetT3] := by
  exact ⟨rfl, by decide⟩

theorem middleware_throw_propagates_but_queue_drains_witness :
    midsThrow2 aSetT2 = .throws ∧
    ((Store.drainE midsThrow2 trigTwo 0 (2 + 1) 1 sInit (aSetT2 :: [aSetT3])).2 = .error () ∧
      (Store.drainE midsThrow2 trigTwo 0 (2 + 1) 1 sInit (aSetT2 :: [aSetT3])).1
        = Store.Event.mk 1 .middleware aSetT2 sInit ::
            (Store.drainE midsThrow2 trigTwo 0 2 (1 + 1) sInit [aSetT3]).1) :=
  ⟨by decide,
    middleware_throw_propagates_but_queue_drains midsThrow2 trigTwo 0 2 1 sInit aSetT2
      [aSetT3] (by decide)⟩

/-! #### C5: visibility enforcement is idempotent -/

theorem setHidden_nil (tabs : List PTab) (h : Bool) : setHidden tabs [] h = tabs := by
  unfold setHidden
  have : ∀ t ∈ tabs, (if t.id ∈ ([] : List Nat) then { t with hidden := h } else t) = t := by
    intro t _
    simp
  rw [List.map_congr_left this]
  exact List.map_id' tabs

/-- The intended per-tab flag after one enforcement pass: a regular tab is
hidden exactly when its assigned topic differs from the active one; other tabs
are untouched. -/
def enfFlag (sid : Nat → String) (amap : List (String × String)) (active : String)
    (t : PTab) : PTab :=
  if isRegularTab t.url then
    { t with hidden := !(mapGet amap (sid t.id) == some active) }
  else t

theorem mem_scanHide (tabs : List PTab) (sid : Nat → String) (amap : List (String × String))
    (active : String) (hnd : (tabs.map (fun t => t.id)).Nodup) (t : PTab) (ht : t ∈ tabs) :
    t.id ∈ (scanTabs tabs sid amap active).1
      ↔ (isRegularTab t.url = true ∧ (mapGet amap (sid t.id) == some active) = false ∧
          t.hidden = false) := by
  unfold scanTabs
  simp only [List.mem_map, List.mem_filter]
  constructor
  · rintro ⟨t', ⟨⟨ht'tabs, ht'reg⟩, ht'cond⟩, ht'id⟩
    obtain rfl : t' = t := List.inj_on_of_nodup_map hnd ht'tabs ht ht'id
    rw [Bool.and_eq_true] at ht'cond
    refine ⟨ht'reg, ?_, ?_⟩
    · simpa using ht'cond.1
    · simpa using ht'cond.2
  · rintro ⟨hreg, hL, hh⟩
    exact ⟨t, ⟨⟨ht, hreg⟩, by simp [hL, hh]⟩, rfl⟩

theorem mem_scanShow (tabs : List PTab) (sid : Nat → String) (amap : List (String × String))
    (active : String) (hnd : (tabs.map (fun t => t.id)).Nodup) (t : PTab) (ht : t ∈ tabs) :
    t.id ∈ (scanTabs tabs sid amap active).2
      ↔ (isRegularTab t.url = true ∧ (mapGet amap (sid t.id) == some active) = true ∧
          t.hidden = true) := by
  unfold scanTabs
  simp only [List.mem_map, List.mem_filter]
  constructor
  · rintro ⟨t', ⟨⟨ht'tabs, ht'reg⟩, ht'cond⟩, ht'id⟩
    obtain rfl : t' = t := List.inj_on_of_nodup_map hnd ht'tabs ht ht'id
    rw [Bool.and_eq_true] at ht'cond
    exact ⟨ht'reg, ht'cond.1, ht'cond.2⟩
  · rintro ⟨hreg, hL, hh⟩
    exact ⟨t, ⟨⟨ht, hreg⟩, by simp [hL, hh]⟩, rfl⟩

/-- With unique tab ids, the hide-then-show sequence of one enforcement pass
realizes exactly the intended per-tab flag. -/
theorem enforce_core_flags (tabs : List PTab) (sid : Nat → String)
    (amap : List (String × String)) (active : String)
    (hnd : (tabs.map (fun t => t.id)).Nodup) :
    setHidden (setHidden tabs (scanTabs tabs sid amap active).1 true)
        (scanTabs tabs sid amap active).2 false
      = tabs.map (enfFlag sid amap active) := by
  unfold setHidden
  rw [List.map_map]
  apply List.map_congr_left
  intro t ht
  simp only [Function.comp]
  by_cases hreg : isRegularTab t.url = true
  · by_cases hL : (mapGet amap (sid t.id) == some active) = true
    · have hnotHide : t.id ∉ (scanTabs tabs sid amap active).1 := by
        rw [mem_scanHide tabs sid amap active hnd t ht]
        rintro ⟨-, h2, -⟩
        rw [hL] at h2
        cases h2
      rw [if_neg hnotHide]
      by_cases hh : t.hidden = true
      · have hshow : t.id ∈ (scanTabs tabs sid amap active).2 := by
          rw [mem_scanShow tabs sid amap active hnd t ht]
          exact ⟨hreg, hL, hh⟩
        rw [if_pos hshow]
        simp [enfFlag, hreg, hL]
      · have hnotShow : t.id ∉ (scanTabs tabs sid amap active).2 := by
          rw [mem_scanShow tabs sid amap active hnd t ht]
          rintro ⟨-, -, h3⟩
          exact hh h3
        rw [if_neg hnotShow]
        simp only [Bool.not_eq_true] at hh
        cases t
        simp_all [enfFlag]
    · have hLfalse : (mapGet amap (sid t.id) == some active) = false := by
        simpa using hL
      have hnotShow : t.id ∉ (scanTabs tabs sid amap active).2 := by
        rw [mem_scanShow tabs sid amap active hnd t ht]
        rintro ⟨-, h2, -⟩
        rw [hLfalse] at h2
        cases h2
      by_cases hh : t.hidden = true
      · have hnotHide : t.id ∉ (scanTabs tabs sid amap active).1 := by
          rw [mem_scanHide tabs sid amap active hnd t ht]
          rintro ⟨-, -, h3⟩
          rw [hh] at h3
          cases h3
        rw [if_neg hnotHide, if_neg hnotShow]
        cases t
        simp_all [enfFlag]
      · have hhide : t.id ∈ (scanTabs tabs sid amap active).1 := by
          rw [mem_scanHide tabs sid amap active hnd t ht]
          simp only [Bool.not_eq_true] at hh
          exact ⟨hreg, hLfalse, hh⟩
        rw [if_pos hhide]
        have hnotShow2 : (PTab.mk t.id t.url true).id ∉ (scanTabs tabs sid amap active).2 := by
          simpa using hnotShow
        rw [if_neg hnotShow2]
        simp [enfFlag, hreg, hLfalse]
  · have hnotHide : t.id ∉ (scanTabs tabs sid amap active).1 := by
      rw [mem_scanHide tabs sid amap active hnd t ht]
      rintro ⟨h1, -, -⟩
      exact hreg h1
    have hnotShow : t.id ∉ (scanTabs tabs sid amap active).2 := by
      rw [mem_scanShow tabs sid amap active hnd t ht]
      rintro ⟨h1, -, -⟩
      exact hreg h1
    rw [if_neg hnotHide, if_neg hnotShow]
    simp [enfFlag, hreg]

/-- A tab list already satisfying the visibility invariant produces an empty
categorization: nothing to hide, nothing to show. -/
theorem scan_empty_of_inv (tabs : List PTab) (sid : Nat → String)
    (amap : List (String × String)) (active : String)
    (hinv : ∀ t ∈ tabs, isRegularTab t.url = true →
      t.hidden = !(mapGet amap (sid t.id) == some active)) :
    scanTabs tabs sid amap active = ([], []) := by
  unfold scanTabs
  refine Prod.ext ?_ ?_
  all_goals
    simp only
    rw [List.map_eq_nil_iff, List.filter_eq_nil_iff]
    intro t ht
    rw [List.mem_filter] at ht
    have hflag := hinv t ht.1 ht.2
    rw [hflag]
    cases hL : (mapGet amap (sid t.id) == some active) <;> simp [hL]

/-- A tab list already satisfying the visibility invariant passes verification
with no corrective calls. -/
theorem verify_empty_of_inv (tabs : List PTab) (sid : Nat → String)
    (amap : List (String × String)) (active : String)
    (hinv : ∀ t ∈ tabs, isRegularTab t.url = true →
      t.hidden = !(mapGet amap (sid t.id) == some active)) :
    verifyScan tabs sid amap active = ([], []) := by
  unfold verifyScan
  refine Prod.ext ?_ ?_
  · simp only
    rw [List.map_eq_nil_iff, List.filter_eq_nil_iff]
    intro t ht
    rw [List.mem_filter, List.mem_filter] at ht
    have hflag := hinv t ht.1.1 ht.1.2
    have hvis := ht.2
    rw [hflag] at hvis
    have hL : (mapGet amap (sid t.id) == some active) = true := by
      cases hL : (mapGet amap (sid t.id) == some active)
      · rw [hL] at hvis; cases hvis
      · rfl
    have hEq : mapGet amap (sid t.id) = some active := by
      simpa using hL
    simp [hEq]
  · simp only
    rw [List.map_eq_nil_iff, List.filter_eq_nil_iff]
    intro t ht
    rw [List.mem_filter, List.mem_filter] at ht
    have hflag := hinv t ht.1.1 ht.1.2
    have hhid := ht.2
    rw [hflag] at hhid
    have hL : (mapGet amap (sid t.id) == some active) = false := by
      cases hL : (mapGet amap (sid t.id) == some active)
      · rfl
      · rw [hL] at hhid; cases hhid
    simp [hL]

/-- The mapped flags satisfy the visibility invariant. -/
theorem inv_of_enfFlag (tabs : List PTab) (sid : Nat → String)
    (amap : List (String × String)) (active : String) :
    ∀ t ∈ tabs.map (enfFlag sid amap active), isRegularTab t.url = true →
      t.hidden = !(mapGet amap (sid t.id) == some active) := by
  intro x hx hreg
  rw [List.mem_map] at hx
  obtain ⟨t, ht, rfl⟩ := hx
  unfold enfFlag
  unfold enfFlag at hreg
  by_cases h : isRegularTab t.url = true
  · simp [h]
  · rw [if_neg h] at hreg
    exact absurd hreg h

/-- C5 (confirmed): under unique platform tab ids and a nonempty active topic,
one run of the enforcement pass establishes that every regular tab's hidden
flag equals "assigned topic differs from the active topic"; a second run's
scan finds nothing to hide or show, its verification pass finds no wrongly
visible or wrongly hidden tab (no corrective calls), and the pass is
idempotent on the platform tab state. -/
theorem enforce_idempotent (tabs : List PTab) (sid : Nat → String)
    (amap : List (String × String)) (active : String)
    (hnd : (tabs.map (fun t => t.id)).Nodup) (hact : active ≠ "") :
    (∀ x ∈ enforceTabVisibility tabs sid amap active, isRegularTab x.url = true →
        x.hidden = !(mapGet amap (sid x.id) == some active)) ∧
    scanTabs (enforceTabVisibility tabs sid amap active) sid amap active = ([], []) ∧
    verifyScan (enforceTabVisibility tabs sid amap active) sid amap active = ([], []) ∧
    enforceTabVisibility (enforceTabVisibility tabs sid amap active) sid amap active
      = enforceTabVisibility tabs sid amap active := by
  have hinvmap := inv_of_enfFlag tabs sid amap active
  have henf : enforceTabVisibility tabs sid amap active = tabs.map (enfFlag sid amap active) := by
    unfold enforceTabVisibility
    rw [if_neg hact]
    simp only
    rw [enforce_core_flags tabs sid amap active hnd]
    unfold verifyTabVisibility
    rw [verify_empty_of_inv _ sid amap active hinvmap]
    simp only
    rw [setHidden_nil, setHidden_nil]
  have hscan : scanTabs (tabs.map (enfFlag sid amap active)) sid amap active = ([], []) :=
    scan_empty_of_inv _ sid amap active hinvmap
  have hver : verifyScan (tabs.map (enfFlag sid amap active)) sid amap active = ([], []) :=
    verify_empty_of_inv _ sid amap active hinvmap
  refine ⟨?_, ?_, ?_, ?_⟩
  · rw [henf]; exact hinvmap
  · rw [henf]; exact hscan
  · rw [henf]; exact hver
  · rw [henf]
    unfold enforceTabVisibility
    rw [if_neg hact]
    simp only
    rw [hscan]
    simp only
    rw [setHidden_nil, setHidden_nil]
    unfold verifyTabVisibility
    rw [hver]
    simp only
    rw [setHidden_nil, setHidden_nil]

theorem enforce_idempotent_witness :
    (tabsW.map (fun t => t.id)).Nodup ∧ ("t1" : String) ≠ "" ∧
    ((∀ x ∈ enforceTabVisibility tabsW sidW amapW "t1", isRegularTab x.url = true →
        x.hidden = !(mapGet amapW (sidW x.id) == some "t1")) ∧
      scanTabs (enforceTabVisibility tabsW sidW amapW "t1") sidW amapW "t1" = ([], []) ∧
      verifyScan (enforceTabVisibility tabsW sidW amapW "t1") sidW amapW "t1" = ([], []) ∧
      enforceTabVisibility (enforceTabVisibility tabsW sidW amapW "t1") sidW amapW "t1"
        = enforceTabVisibility tabsW sidW amapW "t1") :=
  ⟨by decide, by decide, enforce_idempotent tabsW sidW amapW "t1" (by decide) (by decide)⟩

/-! #### C1: stable-id determinism and URL-pattern sensitivity -/

theorem getLast?_append_right {α : Type} (l l' : List α) (h : l' ≠ []) :
    (l ++ l').getLast? = l'.getLast? := by
  have hs : l'.getLast?.isSome := List.getLast?_isSome.mpr h
  cases hg : l'.getLast? with
  | none => rw [hg] at hs; cases hs
  | some x => rw [List.getLast?_append, hg]; rfl

theorem prefCheck_slash_free (pat : List Char) (hpat : ∀ c ∈ pat, c ≠ '/') :
    ∀ (pre rest1 rest2 : List Char),
      prefCheck pat (pre ++ '/' :: rest1) = prefCheck pat (pre ++ '/' :: rest2) := by
  induction pat with
  | nil => intro pre r1 r2; rfl
  | cons p ps ih =>
      intro pre r1 r2
      cases pre with
      | nil =>
          simp only [List.nil_append, prefCheck]
          have hp : (p == '/') = false :=
            beq_eq_false_iff_ne.mpr (hpat p (List.mem_cons_self p ps))
          rw [hp]
          simp
      | cons c cs =>
          simp only [List.cons_append, prefCheck]
          exact congrArg (fun b => p == c && b)
            (ih (fun x hx => hpat x (List.mem_cons_of_mem p hx)) cs r1 r2)

theorem urlString_data (u : JsUrl) :
    (urlString u).data = u.protocol.data ++ '/' :: '/' ::
      (u.hostname.data ++ (u.pathname.data ++ ((searchString u.search).data ++ u.hash.data))) := by
  unfold urlString
  simp only [String.data_append, List.append_assoc]
  rfl

/-- Whether a URL is scheme-restricted depends only on its protocol: the
scheme prefixes contain no slash while the serialized URL continues with
`//` right after the protocol. -/
theorem isRestrictedUrl_congr (u1 u2 : JsUrl) (h : u1.protocol = u2.protocol) :
    isRestrictedUrl u1 = isRestrictedUrl u2 := by
  unfold isRestrictedUrl restrictedSchemes jsStartsWith
  simp only [List.any_cons, List.any_nil]
  have key : ∀ pat : String, (∀ c ∈ pat.data, c ≠ '/') →
      prefCheck pat.data (urlString u1).data = prefCheck pat.data (urlString u2).data := by
    intro pat hpat
    rw [urlString_data u1, urlString_data u2, h]
    exact prefCheck_slash_free pat.data hpat _ _ _
  rw [key "about:" (by decide), key "moz-extension:" (by decide), key "chrome:" (by decide),
    key "resource:" (by decide), key "file:" (by decide), key "view-source:" (by decide)]

/-- Canonical form of the non-shortcircuit branch of the URL pattern; it
covers the empty-search early branch as well, because an empty search filters,
sorts and serializes to the empty parameter string. -/
theorem pattern_eq_general (u : JsUrl) (hguard : ¬(u.hash ≠ "" ∧ jsIncludes u.hash "topicId=")) :
    getNormalizedUrlPattern u =
      (if joinAmp ((sortParams (u.search.filter fun p => !(isUnstableKey p.1))).map
            fun p => p.1 ++ "=" ++ p.2) = "" then
        stripTrailingSlashes (u.protocol ++ "//" ++ u.hostname ++ u.pathname)
      else
        stripTrailingSlashes (u.protocol ++ "//" ++ u.hostname ++ u.pathname) ++ "?" ++
          joinAmp ((sortParams (u.search.filter fun p => !(isUnstableKey p.1))).map
            fun p => p.1 ++ "=" ++ p.2)) := by
  unfold getNormalizedUrlPattern
  rw [if_neg hguard]
  by_cases hs : u.search = []
  · rw [hs]
    simp [sortParams, joinAmp, List.filter]
  · have hse : u.search.isEmpty = false := by
      cases hcase : u.search with
      | nil => exact absurd hcase hs
      | cons a l => rfl
    simp only [hse, Bool.false_eq_true, if_false]

/-- Filtering out the blacklisted keys is unaffected by appending a
blacklisted parameter. -/
theorem filter_stable_append (l : List (String × String)) (k v : String)
    (hk : isUnstableKey k = true) :
    (l ++ [(k, v)]).filter (fun p => !(isUnstableKey p.1))
      = l.filter (fun p => !(isUnstableKey p.1)) := by
  rw [List.filter_append]
  have : List.filter (fun p => !(isUnstableKey p.1)) [(k, v)] = [] := by
    simp [List.filter, hk]
  rw [this, List.append_nil]

/-- Filtering out the blacklisted keys is unaffected by rewriting the values
of blacklisted parameters. -/
theorem filter_stable_map (l : List (String × String)) (f : String × String → String) :
    (l.map fun p => if isUnstableKey p.1 then (p.1, f p) else p).filter
        (fun p => !(isUnstableKey p.1))
      = l.filter (fun p => !(isUnstableKey p.1)) := by
  induction l with
  | nil => rfl
  | cons p ps ih =>
      cases hk : isUnstableKey p.1 <;> simp [List.filter_cons, hk, ih]

/-- Two URLs that differ only in query parameters with equal stable residue
have the same pattern. -/
theorem pattern_search_invariant (u : JsUrl) (s2 : List (String × String))
    (hguard : ¬(u.hash ≠ "" ∧ jsIncludes u.hash "topicId="))
    (hfilt : s2.filter (fun p => !(isUnstableKey p.1))
      = u.search.filter (fun p => !(isUnstableKey p.1))) :
    getNormalizedUrlPattern { u with search := s2 } = getNormalizedUrlPattern u := by
  rw [pattern_eq_general { u with search := s2 } hguard, pattern_eq_general u hguard]
  simp only [hfilt]

theorem stableId_search_invariant (u : JsUrl) (s2 : List (String × String))
    (title fav fp : String)
    (hguard : ¬(u.hash ≠ "" ∧ jsIncludes u.hash "topicId="))
    (hfilt : s2.filter (fun p => !(isUnstableKey p.1))
      = u.search.filter (fun p => !(isUnstableKey p.1)))
    (hrestr : isRestrictedUrl u = false) :
    getStableTabId ⟨{ u with search := s2 }, title, fav⟩ (.ok fp)
      = getStableTabId ⟨u, title, fav⟩ (.ok fp) := by
  have hpat := pattern_search_invariant u s2 hguard hfilt
  have hre : isRestrictedUrl { u with search := s2 } = false := by
    rw [isRestrictedUrl_congr { u with search := s2 } u rfl]
    exact hrestr
  simp only [getStableTabId, getTabMetadata, generateStableId, extractDomFingerprint,
    extractDomain, hre, hrestr, hpat, Bool.false_eq_true, if_false]

theorem stripTrailingSlashes_eq_self (s : String) (h : s.data.getLast? ≠ some '/') :
    stripTrailingSlashes s = s := by
  apply strEq_of_data
  show (s.data.reverse.dropWhile (fun c => c == '/')).reverse = s.data
  cases hr : s.data.reverse with
  | nil =>
      have : s.data = [] := List.reverse_eq_nil_iff.mp hr
      simp [this, List.dropWhile]
  | cons c cs =>
      have hc : c ≠ '/' := by
        intro hcc
        apply h
        rw [← List.head?_reverse, hr, hcc]
        rfl
      have hcb : (c == '/') = false := beq_eq_false_iff_ne.mpr hc
      rw [List.dropWhile_cons, hcb]
      simp only [Bool.false_eq_true, if_false]
      rw [← hr, List.reverse_reverse]

/-- Changing the path (to a genuinely different one: nonempty, not ending in a
slash, so that trailing-slash stripping cannot identify them) changes the
normalized URL pattern. -/
theorem pattern_setPath_ne (u : JsUrl) (p : String)
    (hguard : ¬(u.hash ≠ "" ∧ jsIncludes u.hash "topicId="))
    (hne : p ≠ u.pathname) (hp0 : p ≠ "") (hq0 : u.pathname ≠ "")
    (hp : p.data.getLast? ≠ some '/') (hq : u.pathname.data.getLast? ≠ some '/') :
    getNormalizedUrlPattern (setPath u p) ≠ getNormalizedUrlPattern u := by
  have hstrip : ∀ q : String, q ≠ "" → q.data.getLast? ≠ some '/' →
      stripTrailingSlashes (u.protocol ++ "//" ++ u.hostname ++ q)
        = u.protocol ++ "//" ++ u.hostname ++ q := by
    intro q hq0' hq'
    apply stripTrailingSlashes_eq_self
    have hdata : (u.protocol ++ "//" ++ u.hostname ++ q).data
        = (u.protocol ++ "//" ++ u.hostname).data ++ q.data := String.data_append _ _
    rw [hdata, getLast?_append_right _ _ (data_ne_nil_of_ne_empty hq0')]
    exact hq'
  rw [pattern_eq_general (setPath u p) hguard, pattern_eq_general u hguard]
  simp only [setPath]
  rw [hstrip p hp0 hp, hstrip u.pathname hq0 hq]
  set ps := joinAmp ((sortParams (u.search.filter fun pr => !(isUnstableKey pr.1))).map
    fun pr => pr.1 ++ "=" ++ pr.2) with hps
  by_cases hempty : ps = ""
  · rw [if_pos hempty, if_pos hempty]
    intro heq
    apply hne
    apply strEq_of_data
    have hdata := congrArg String.data heq
    simp only [String.data_append, List.append_assoc] at hdata
    exact List.append_cancel_left (List.append_cancel_left (List.append_cancel_left hdata))
  · rw [if_neg hempty, if_neg hempty]
    intro heq
    apply hne
    apply strEq_of_data
    have hdata := congrArg String.data heq
    simp only [String.data_append, List.append_assoc] at hdata
    have h2 := List.append_cancel_left (List.append_cancel_left (List.append_cancel_left hdata))
    exact List.append_cancel_right h2

/-- C1 (corrected/amended): (a) the stable-id computation is deterministic in
the tab's url, title, domain, favicon and DOM-probe result; (b) for URLs
without a `topicId=` fragment marker, changing only query parameters with
blacklisted volatile key prefixes (appending one, or rewriting their values)
leaves the normalized URL pattern unchanged, and leaves the StableId unchanged
when the DOM fingerprint comes from the page probe (non-restricted URL,
successful `executeScript`); (c) changing the path changes the normalized URL
pattern — the input of the stable-id hash — provided the paths are nonempty,
differ, and do not end in a slash (trailing slashes are stripped), though the
final 32-bit ids may still collide (see the counterexample for both the
trailing-slash identification and the fragment-URL failure of (b) as
originally stated). -/
theorem stableId_normalization :
    (∀ (t1 t2 : BrowserTab) (d : DomScriptOutcome), t1.url = t2.url → t1.title = t2.title →
      t1.favIconUrl = t2.favIconUrl → getStableTabId t1 d = getStableTabId t2 d) ∧
    (∀ (u : JsUrl) (s2 : List (String × String)) (title fav fp : String),
      ¬(u.hash ≠ "" ∧ jsIncludes u.hash "topicId=") →
      s2.filter (fun p => !(isUnstableKey p.1)) = u.search.filter (fun p => !(isUnstableKey p.1)) →
      getNormalizedUrlPattern { u with search := s2 } = getNormalizedUrlPattern u ∧
        (isRestrictedUrl u = false →
          getStableTabId ⟨{ u with search := s2 }, title, fav⟩ (.ok fp)
            = getStableTabId ⟨u, title, fav⟩ (.ok fp))) ∧
    (∀ (u : JsUrl) (k v : String), ¬(u.hash ≠ "" ∧ jsIncludes u.hash "topicId=") →
      isUnstableKey k = true →
      getNormalizedUrlPattern (addQueryParam u k v) = getNormalizedUrlPattern u) ∧
    (∀ (u : JsUrl) (p : String), ¬(u.hash ≠ "" ∧ jsIncludes u.hash "topicId=") →
      p ≠ u.pathname → p ≠ "" → u.pathname ≠ "" →
      p.data.getLast? ≠ some '/' → u.pathname.data.getLast? ≠ some '/' →
      getNormalizedUrlPattern (setPath u p) ≠ getNormalizedUrlPattern u) := by
  refine ⟨?_, ?_, ?_, ?_⟩
  · intro t1 t2 d h1 h2 h3
    cases t1; cases t2
    simp only at h1 h2 h3
    subst h1; subst h2; subst h3
    rfl
  · intro u s2 title fav fp hguard hfilt
    exact ⟨pattern_search_invariant u s2 hguard hfilt,
      fun hrestr => stableId_search_invariant u s2 title fav fp hguard hfilt hrestr⟩
  · intro u k v hguard hk
    exact pattern_search_invariant u (u.search ++ [(k, v)]) hguard
      (filter_stable_append u.search k v hk)
  · intro u p hguard hne hp0 hq0 hp hq
    exact pattern_setPath_ne u p hguard hne hp0 hq0 hp hq

/-- C1 counterexample for the claim as stated: (i) changing the path of
`https://example.com/a` to `/a/` (a different path) does NOT change the
StableId — trailing slashes are stripped, the two normalize identically; (ii)
on a URL whose fragment carries the `topicId=` marker, appending the
blacklisted parameter `utm_source=x` DOES change the StableId, because the
short-circuit hashes the full URL. -/
theorem claim_c1_counterexample :
    ((setPath urlA "/a/").pathname ≠ urlA.pathname ∧
      getStableTabId ⟨setPath urlA "/a/", "T", ""⟩ (.ok "fp")
        = getStableTabId ⟨urlA, "T", ""⟩ (.ok "fp")) ∧
    (isUnstableKey "utm_source" = true ∧
      getStableTabId ⟨addQueryParam urlFrag "utm_source" "x", "T", ""⟩ (.ok "fp")
        ≠ getStableTabId ⟨urlFrag, "T", ""⟩ (.ok "fp")) := by
  refine ⟨⟨by decide, by decide⟩, by decide, by decide⟩

theorem stableId_normalization_witness :
    (getStableTabId ⟨urlQ, "T", "f"⟩ .failed = getStableTabId ⟨urlQ, "T", "f"⟩ .failed) ∧
    (getNormalizedUrlPattern
        { urlQ with search := urlQ.search ++ [("utm_source", "x")] }
      = getNormalizedUrlPattern urlQ ∧
      getStableTabId ⟨{ urlQ with search := urlQ.search ++ [("utm_source", "x")] }, "T", "f"⟩
          (.ok "fp")
        = getStableTabId ⟨urlQ, "T", "f"⟩ (.ok "fp")) ∧
    getNormalizedUrlPattern (addQueryParam urlQ "utm_source" "x")
      = getNormalizedUrlPattern urlQ ∧
    getNormalizedUrlPattern (setPath urlQ "/q") ≠ getNormalizedUrlPattern urlQ := by
  obtain ⟨ha, hb, hc, hd⟩ := stableId_normalization
  refine ⟨ha ⟨urlQ, "T", "f"⟩ ⟨urlQ, "T", "f"⟩ .failed rfl rfl rfl, ?_, ?_, ?_⟩
  · have := hb urlQ (urlQ.search ++ [("utm_source", "x")]) "T" "f" "fp" (by decide) (by decide)
    exact ⟨this.1, this.2 (by decide)⟩
  · exact hc urlQ "utm_source" "x" (by decide) (by decide)
  · exact hd urlQ "/q" (by decide) (by decide) (by decide) (by decide) (by decide) (by decide)
